import Mathlib

/-!
Verification of the spot trading bot (core/position_manager.py,
core/trading_engine.py, core/ai_orchestrator.py, core/market_data_manager.py).

Modelling conventions:
* Python `float` values are modelled as exact rationals (`ℚ`).  All the
  quantities the claims are about (balances, prices, quantities, percentages)
  are compared and combined with `+ * / min max` and the decimal rounding
  `float(f"{x:.6f}")`, which are exact on the rationals appearing in the
  claims' scenarios.
* Symbols are modelled as already canonical (upper-case, stripped) strings:
  every code path normalises with `.upper().strip()` before storing or
  comparing, so the normalisation is the identity here.
* `uuid.uuid4()` position ids are modelled by a fresh-id counter (`nextId`)
  carried in the manager state; freshness replaces uuid uniqueness.
* Dict-of-positions (`self.open_positions`) is modelled as an
  insertion-ordered list; Python dict insertion appends, `pop` removes the
  key.
* Timestamps (`opened_at`, `closed_at`), `meta` and `mode` bookkeeping
  fields are omitted: no claim mentions them.
-/

namespace V1Bot

/-- A position dict as built by `PositionManager.open_position`
(core/position_manager.py lines 143-163). -/
structure Position where
  id : Nat
  symbol : String
  source : String
  entry_price : ℚ
  qty : ℚ
  current_price : ℚ
  pnl_usdt : ℚ
  pnl_percent : ℚ
  tp_price : Option ℚ
  sl_price : Option ℚ
  use_trailing : Bool
  trailing_sl_pct : ℚ
  peak_price : ℚ
  status : String
  exit_reason : Option String
deriving Repr, DecidableEq

/-- The mutable state of `PositionManager`: `open_positions` (dict values in
insertion order), `closed_positions`, plus the fresh-id counter standing in
for `uuid.uuid4()`. -/
structure PMState where
  open_positions : List Position
  closed_positions : List Position
  nextId : Nat
deriving Repr, DecidableEq

/-- The `risk_limits.*` settings read by the `open_position` fallback
(core/position_manager.py lines 124-128).  `trailing_sl_pct = none` models an
absent setting (Python default: `stop_loss_pct`); a stored `0` is falsy in
`... or stop_loss_pct` and also falls back. -/
structure RiskSettings where
  take_profit_pct : ℚ := 3 / 2
  stop_loss_pct : ℚ := 1
  use_trailing : Bool := true
  trailing_sl_pct : Option ℚ := none
deriving Repr, DecidableEq

/-- `PositionManager.has_open_bot_position` (lines 66-71). -/
def hasOpenBotPosition (pm : PMState) (sym : String) : Bool :=
  pm.open_positions.any fun p =>
    p.symbol == sym && p.status == "open" && p.source == "bot"

/-- Python truthiness conversion `float(x) if x else None` applied to an
optional float: `None` and `0.0` both map to `None`. -/
def optTruthy (o : Option ℚ) : Option ℚ :=
  match o with
  | some v => if v = 0 then none else some v
  | none => none

/-- `PositionManager.open_position` (lines 100-170).  Returns the new manager
state and the created position, or the `ValueError` message. -/
def openPosition (s : RiskSettings) (pm : PMState) (symbol : String)
    (entry_price qty : ℚ) (source : String)
    (tp_price sl_price : Option ℚ) (use_trailing : Option Bool)
    (trailing_sl_pct : Option ℚ) : Except String (PMState × Position) :=
  if entry_price ≤ 0 ∨ qty ≤ 0 ∨ symbol = "" then
    .error "Invalid position parameters."
  else if source == "bot" && hasOpenBotPosition pm symbol then
    .error ("Bot already has open position on " ++ symbol)
  else
    -- fallback settings if AI did not provide (lines 124-138)
    let needFallback :=
      tp_price.isNone || sl_price.isNone || use_trailing.isNone ||
        trailing_sl_pct.isNone
    let tr_def : ℚ :=
      match s.trailing_sl_pct with
      | some v => if v = 0 then s.stop_loss_pct else v
      | none => s.stop_loss_pct
    let tp1 :=
      if needFallback && tp_price.isNone && decide (s.take_profit_pct > 0)
      then some (entry_price * (1 + s.take_profit_pct / 100)) else tp_price
    let sl1 :=
      if needFallback && sl_price.isNone && decide (s.stop_loss_pct > 0)
      then some (entry_price * (1 - s.stop_loss_pct / 100)) else sl_price
    let ut1 := use_trailing.getD s.use_trailing
    let tr1 := trailing_sl_pct.getD tr_def
    let pos : Position :=
      { id := pm.nextId
        symbol := symbol
        source := source
        entry_price := entry_price
        qty := qty
        current_price := entry_price
        pnl_usdt := 0
        pnl_percent := 0
        tp_price := optTruthy tp1
        sl_price := optTruthy sl1
        use_trailing := if source == "bot" then ut1 else false
        trailing_sl_pct := tr1
        peak_price := entry_price
        status := "open"
        exit_reason := none }
    .ok ({ pm with
            open_positions := pm.open_positions ++ [pos]
            nextId := pm.nextId + 1 }, pos)

/-- The per-position body of the `update_price` loop
(core/position_manager.py lines 183-200): refresh current price / PnL, then
ratchet the trailing stop. -/
def updatePos (price : ℚ) (p : Position) : Position :=
  let entry := p.entry_price
  let p1 :=
    { p with
        current_price := price
        pnl_usdt := (price - entry) * p.qty
        pnl_percent := if entry > 0 then (price - entry) / entry * 100 else 0 }
  if p1.source == "bot" && p1.use_trailing && p1.sl_price.isSome then
    if price > p1.peak_price then
      let p2 := { p1 with peak_price := price }
      if p2.trailing_sl_pct > 0 then
        let new_sl := price * (1 - p2.trailing_sl_pct / 100)
        match p2.sl_price with
        | some sl => if new_sl > sl then { p2 with sl_price := some new_sl } else p2
        | none => p2
      else p2
    else p1
  else p1

/-- `PositionManager.update_price` (lines 173-206). -/
def updatePrice (pm : PMState) (symbol : String) (price : ℚ) : PMState :=
  if price ≤ 0 ∨ symbol = "" then pm
  else
    { pm with
        open_positions := pm.open_positions.map fun p =>
          if p.symbol == symbol && p.status == "open" then updatePos price p
          else p }

/-- `PositionManager.check_exit_recommendations` (lines 212-243). -/
def checkExitRecommendations (pm : PMState) (symbol : String) (price : ℚ)
    (allow_trailing : Bool) : List (Nat × String) :=
  if price ≤ 0 then []
  else
    pm.open_positions.filterMap fun p =>
      if p.status != "open" then none
      else if p.symbol != symbol then none
      else if p.source != "bot" then none
      else
        let use_tr := p.use_trailing && allow_trailing
        let slCheck : Option (Nat × String) :=
          match p.sl_price with
          | some sl =>
              if price ≤ sl then
                some (p.id, if use_tr then "TRAILING_SL" else "SL")
              else none
          | none => none
        match p.tp_price with
        | some tp => if price ≥ tp then some (p.id, "TP") else slCheck
        | none => slCheck

/-- `PositionManager.close_position` (lines 246-283).  `none` models the
`return None` branches. -/
def closePosition (pm : PMState) (position_id : Nat) (exit_price : ℚ)
    (reason : String) : Option (PMState × Position) :=
  match pm.open_positions.find? (fun p => p.id == position_id) with
  | none => none
  | some pos =>
    if pos.status != "open" then none
    else if pos.source == "manual" then none
    else
      let entry := pos.entry_price
      let qty := pos.qty
      let closed :=
        { pos with
            current_price := exit_price
            pnl_usdt := (exit_price - entry) * qty
            pnl_percent :=
              if entry > 0 then (exit_price - entry) / entry * 100 else 0
            status := "closed"
            exit_reason := some reason }
      some
        ({ pm with
            open_positions := pm.open_positions.filter (fun p => p.id != position_id)
            closed_positions := closed :: pm.closed_positions },
         closed)

/-!
TradingEngine embedding (paper mode)

The claims about the engine are all about paper mode, so the live-order
branches (`self.client` calls) are specialised away: in paper mode
`self.client is None` and those branches are dead
(core/trading_engine.py lines 580-599, 661-671).  The `RiskManager` gate is
abstracted as a boolean parameter `riskAllowed` — no claim depends on its
internals, only on the engine's reaction to its verdict.
-/

/-- The slice of the engine state dict (`StateManager`) plus the position
manager that the engine reads and writes.  `daily_date` and
`last_profit_split_date` are iso-format date strings (`none` models an
absent key). -/
structure EngState where
  paper_balance_usdt : ℚ
  realized_pnl_today : ℚ
  capital_usdt : ℚ
  bot_balance_usdt : ℚ
  daily_start_equity : ℚ
  daily_date : Option String
  last_profit_split_date : Option String
  pm : PMState
deriving Repr, DecidableEq

/-- Engine settings the claims touch: `risk_limits.min_trade_usdt`
(default 2.0, core/trading_engine.py line 537) and the `risk_limits.*`
fallbacks used by `open_position`. -/
structure EngCfg where
  min_trade_usdt : ℚ := 2
  risk : RiskSettings := {}
deriving Repr, DecidableEq

/-- Round-half-even to the nearest integer, for nonnegative rationals
(`q.num / q.den` is truncation, which equals the floor when `q ≥ 0`). -/
def roundHalfEvenNonneg (q : ℚ) : ℤ :=
  let f : ℤ := q.num / q.den
  let frac := q - (f : ℚ)
  if frac > 1 / 2 then f + 1
  else if frac < 1 / 2 then f
  else if f % 2 = 0 then f else f + 1

/-- Python's `float(f"{qty:.6f}")` — `_normalize_quantity` in paper mode
(core/trading_engine.py line 904): round to 6 decimal places.  CPython
formats with round-half-even; `_normalize_quantity` only reaches this for
`qty > 0` (line 901). -/
def roundQty6 (q : ℚ) : ℚ :=
  (roundHalfEvenNonneg (q * 1000000) : ℚ) / 1000000

/-- What `_execute_entry` did, observable alongside the state. -/
inductive EntryOutcome
  | rejected (code : String)
  | openFailed (msg : String)
  | opened (pid : Nat)
deriving Repr, DecidableEq

/-- `TradingEngine._execute_entry` in paper mode
(core/trading_engine.py lines 566-648): solvency check with `1e-9`
tolerance, debit clamped at zero, then `open_position` with
`source="bot"`.  The `float(x) if x else None` truthiness on `tp_price` /
`sl_price` (lines 620-621) is `optTruthy`. -/
def executeEntry (cfg : EngCfg) (st : EngState) (symbol : String)
    (price qty : ℚ) (tp_price sl_price : Option ℚ) (use_trailing : Bool)
    (trailing_sl_pct : ℚ) : EngState × EntryOutcome :=
  let trade_amount := price * qty
  let paper_bal := st.paper_balance_usdt
  if trade_amount > paper_bal + 1 / 1000000000 then
    (st, .rejected "PAPER_INSUFFICIENT_BAL")
  else
    let st1 := { st with paper_balance_usdt := max 0 (paper_bal - trade_amount) }
    match openPosition cfg.risk st1.pm symbol price qty "bot"
        (optTruthy tp_price) (optTruthy sl_price)
        (some (use_trailing && decide (trailing_sl_pct > 0)))
        (some trailing_sl_pct) with
    | .error e => (st1, .openFailed e)
    | .ok (pm', pos) => ({ st1 with pm := pm' }, .opened pos.id)

/-- `TradingEngine._execute_close` in paper mode
(core/trading_engine.py lines 650-716): guard on existence / bot source /
positive qty, close in the manager, accumulate realized PnL, credit the
paper balance with `qty * price`. -/
def executeClose (st : EngState) (pid : Nat) (price : ℚ) (reason : String) :
    EngState :=
  match st.pm.open_positions.find? (fun p => p.id == pid) with
  | none => st
  | some pos =>
    if pos.source != "bot" then st
    else if pos.qty ≤ 0 then st
    else
      match closePosition st.pm pid price reason with
      | none => st
      | some (pm', closed) =>
        { st with
            pm := pm'
            realized_pnl_today := st.realized_pnl_today + closed.pnl_usdt
            paper_balance_usdt := st.paper_balance_usdt + pos.qty * price }

/-- The fields of `AITradeDecision` that `_apply_ai_decision` reads
(core/ai_orchestrator.py lines 9-22). -/
structure AITradeDecision where
  symbol : String
  action : String := "HOLD"
  score : ℚ := 0
  requested_trade_usdt : ℚ := 0
  sl_pct : Option ℚ := none
  tp_pct : Option ℚ := none
  use_trailing : Bool := false
  trailing_sl_pct : ℚ := 0
deriving Repr, DecidableEq

/-- Observable result of `_apply_ai_decision`. -/
inductive DecisionOutcome
  | noPrice
  | exited
  | held
  | entryRejected (code : String)
  | entryOpenFailed (msg : String)
  | entryOpened (pid : Nat)
deriving Repr, DecidableEq

/-- `TradingEngine._apply_ai_decision` in paper mode
(core/trading_engine.py lines 463-563): price refresh, exit
recommendations, AI forced exit, then the entry gauntlet — risk gate,
symbol-duplication check, requested-value clipping by the paper balance
(line 534), minimum-trade check, quantity normalisation, and
`_execute_entry`.  `last` is `self.market.prices.get(sym)`. -/
def applyAiDecision (cfg : EngCfg) (riskAllowed : Bool)
    (dec : AITradeDecision) (last : ℚ) (st : EngState) :
    EngState × DecisionOutcome :=
  let sym := dec.symbol
  if sym = "" then (st, .held)
  else if last ≤ 0 then (st, .noPrice)
  else
    let st := { st with pm := updatePrice st.pm sym last }
    let bot_positions_sym := st.pm.open_positions.filter fun p =>
      p.symbol == sym && p.source == "bot"
    let recs := checkExitRecommendations st.pm sym last true
    let st := recs.foldl (fun s pr => executeClose s pr.1 last pr.2) st
    if dec.action == "EXIT" && !bot_positions_sym.isEmpty then
      (bot_positions_sym.foldl (fun s p => executeClose s p.id last "AI_EXIT") st,
       .exited)
    else if dec.action != "ENTRY" then (st, .held)
    else if !riskAllowed then (st, .entryRejected "RISK_BLOCK")
    else if !bot_positions_sym.isEmpty then (st, .entryRejected "DUPLICATE_SYMBOL")
    else if dec.requested_trade_usdt ≤ 0 then (st, .entryRejected "REQ_USDT_ZERO")
    else
      let paper_bal := st.paper_balance_usdt
      if paper_bal ≤ 0 then (st, .entryRejected "PAPER_BAL_ZERO")
      else
        -- Clip by paper balance (line 534)
        let req_usdt := min dec.requested_trade_usdt paper_bal
        if req_usdt < cfg.min_trade_usdt then (st, .entryRejected "MIN_TRADE_BLOCK")
        else
          let qty := roundQty6 (req_usdt / last)
          if qty ≤ 0 then (st, .entryRejected "QTY_NORMALIZE_ZERO")
          else
            let sl_price := match dec.sl_pct with
              | some v => if v = 0 then none else some (last * (1 - v / 100))
              | none => none
            let tp_price := match dec.tp_pct with
              | some v => if v = 0 then none else some (last * (1 + v / 100))
              | none => none
            match executeEntry cfg st sym last qty tp_price sl_price
                dec.use_trailing dec.trailing_sl_pct with
            | (st', .rejected c) => (st', .entryRejected c)
            | (st', .openFailed m) => (st', .entryOpenFailed m)
            | (st', .opened pid) => (st', .entryOpened pid)

/-- `TradingEngine._apply_daily_profit_split`
(core/trading_engine.py lines 431-454).  The Python `or`-defaults are kept:
`capital_usdt` of `0` is falsy and falls back to `max_bot_balance`. -/
def applyDailyProfitSplit (maxBotBalance : ℚ) (st : EngState) : EngState :=
  let prev_date := (st.daily_date.getD "")
  if prev_date = "" then st
  else if (st.last_profit_split_date.getD "") = prev_date then st
  else
    let pnl := st.realized_pnl_today
    let capital := if st.capital_usdt = 0 then maxBotBalance else st.capital_usdt
    let bot_bal := st.bot_balance_usdt
    let capital2 := if pnl > 0 then capital + pnl * (1 / 2)
      else if pnl < 0 then capital + pnl else capital
    let bot_bal2 := if pnl > 0 then bot_bal + pnl * (1 / 2) else bot_bal
    { st with
        capital_usdt := capital2
        bot_balance_usdt := bot_bal2
        last_profit_split_date := some prev_date }

/-- `TradingEngine._ensure_daily_rollover`
(core/trading_engine.py lines 410-429). -/
def ensureDailyRollover (today : String) (maxBotBalance : ℚ) (st : EngState) :
    EngState :=
  match st.daily_date with
  | none =>
    { st with daily_date := some today, daily_start_equity := maxBotBalance }
  | some prev =>
    if prev = "" then
      { st with daily_date := some today, daily_start_equity := maxBotBalance }
    else if prev = today then st
    else
      let st1 := applyDailyProfitSplit maxBotBalance st
      { st1 with
          realized_pnl_today := 0
          daily_date := some today
          daily_start_equity := maxBotBalance }

/-!
AIOrchestrator gate embedding

`AIOrchestrator.evaluate_symbol` (core/ai_orchestrator.py lines 95-222),
specialised past the eval-cooldown cache and the strategy-output
extraction: `signal` and `score` are taken as inputs, `elapsed` is
`now - self._boot_ts`.  `valid_count` is the literal `1` from line 129.
-/

/-- The `ai.*` settings `evaluate_symbol` reads (with the code's defaults,
lines 143-168). -/
structure AiConfig where
  min_score : ℚ := 2 / 5
  min_valid_signals : Nat := 1
  warmup_relax_sec : ℚ := 300
  warmup_relax_score_delta : ℚ := 1 / 10
deriving Repr, DecidableEq

/-- `valid_count = 1` — hardcoded at core/ai_orchestrator.py line 129. -/
def validCount : Nat := 1

/-- The effective minimum score of the gate: lowered by the configured
delta (clamped at 0) inside the warmup window (lines 157-169). -/
def effectiveMinScore (cfg : AiConfig) (elapsed : ℚ) : ℚ :=
  if elapsed < cfg.warmup_relax_sec then
    max 0 (cfg.min_score - cfg.warmup_relax_score_delta)
  else cfg.min_score

/-- The effective minimum valid-signal count of the gate: `min_signals`
is set to `min_signals_base` at line 165 and never modified by the warmup
branch (lines 167-169). -/
def effectiveMinSignals (cfg : AiConfig) (elapsed : ℚ) : Nat :=
  cfg.min_valid_signals

/-- Action and reject reason of the returned `AITradeDecision`. -/
structure GateResult where
  action : String
  reject_reason : Option String
deriving Repr, DecidableEq

/-- The decision gate of `evaluate_symbol` (lines 188-222): EXIT mapping,
entry-signal filter, score gate, valid-signal-count gate. -/
def evaluateGate (cfg : AiConfig) (elapsed : ℚ) (signal : String) (score : ℚ) :
    GateResult :=
  if signal == "EXIT" || signal == "SELL" || signal == "CLOSE" then
    ⟨"EXIT", none⟩
  else if !(signal == "ENTRY" || signal == "BUY" || signal == "LONG") then
    ⟨"HOLD", some "STRATEGY_SIGNAL_NOT_ENTRY"⟩
  else if score < effectiveMinScore cfg elapsed then
    ⟨"HOLD", some "SCORE_BELOW_MIN"⟩
  else if validCount < effectiveMinSignals cfg elapsed then
    ⟨"HOLD", some "NOT_ENOUGH_VALID_SIGNALS"⟩
  else ⟨"ENTRY", none⟩

/-!
MarketDataManager reconnect backoff embedding

`_ws_loop` (core/market_data_manager.py lines 240-263) and `_on_open`
(lines 279-283).  One loop iteration runs a connection attempt
(`_connect_and_run`); if `_on_open` fired during it the index was reset to
0.  After the attempt ends, a set `_force_reconnect_event` (watch-set
change) clears the event and resets the index with no delay; otherwise the
loop sleeps `ws_backoff_sec[min(index, len-1)]` and increments the index.
-/

/-- `market_data.ws_backoff_sec` (default `[2, 5, 10, 15]`, line 58). -/
structure WsConfig where
  ws_backoff_sec : List Nat := [2, 5, 10, 15]
deriving Repr, DecidableEq

/-- `self.ws_backoff_sec[min(self._reconnect_index, len(...) - 1)]`
(line 257). -/
def backoffDelay (cfg : WsConfig) (idx : Nat) : Nat :=
  cfg.ws_backoff_sec.getD (min idx (cfg.ws_backoff_sec.length - 1)) 0

/-- One connection attempt of `_ws_loop`: whether `_on_open` fired during
it, and whether `_force_reconnect_event` was set when it ended. -/
structure WsAttempt where
  opened : Bool
  forced : Bool
deriving Repr, DecidableEq

/-- `_on_open` (line 283): a successful connection resets the index. -/
def wsOnOpen (idx : Nat) : Nat := 0

/-- The reconnect tail of one `_ws_loop` iteration: new index and the
sleep delay (none when the reconnect was forced by a watch-set change). -/
def wsLoopStep (cfg : WsConfig) (idx : Nat) (a : WsAttempt) : Nat × Option Nat :=
  let idx1 := if a.opened then wsOnOpen idx else idx
  if a.forced then (0, none)
  else (idx1 + 1, some (backoffDelay cfg idx1))

/-- The index after a sequence of `_ws_loop` iterations. -/
def wsRun (cfg : WsConfig) (idx : Nat) (attempts : List WsAttempt) : Nat :=
  attempts.foldl (fun i a => (wsLoopStep cfg i a).1) idx

/-!
PositionManager operation semantics (for reachability invariants)

Client-visible mutating operations.  A raising `open_position` and a
`None`-returning `close_position` leave the manager state unchanged.
-/

/-- One call into the `PositionManager` mutating API. -/
inductive PMOp
  | openPos (symbol : String) (entry_price qty : ℚ) (source : String)
      (tp sl : Option ℚ) (ut : Option Bool) (tr : Option ℚ)
  | closePos (pid : Nat) (exit_price : ℚ) (reason : String)
  | tick (symbol : String) (price : ℚ)

/-- Effect of one operation on the manager state. -/
def pmStep (s : RiskSettings) (pm : PMState) : PMOp → PMState
  | .openPos sym e q src tp sl ut tr =>
    match openPosition s pm sym e q src tp sl ut tr with
    | .ok (pm', _) => pm'
    | .error _ => pm
  | .closePos pid xp r =>
    match closePosition pm pid xp r with
    | some (pm', _) => pm'
    | none => pm
  | .tick sym price => updatePrice pm sym price

/-- The empty manager state (fresh install: no persisted positions). -/
def pmInit : PMState := ⟨[], [], 0⟩

/-- Manager state reached by a sequence of operations from the empty
state. -/
def pmRun (s : RiskSettings) (ops : List PMOp) : PMState :=
  ops.foldl (pmStep s) pmInit

/-- Number of open bot-sourced positions on `sym`. -/
def openBotCount (pm : PMState) (sym : String) : Nat :=
  (pm.open_positions.filter fun p =>
    p.symbol == sym && p.status == "open" && p.source == "bot").length

/-- A sequence of `update_price` calls (the tick stream seen by the
manager). -/
def applyTicks (pm : PMState) (ticks : List (String × ℚ)) : PMState :=
  ticks.foldl (fun s t => updatePrice s t.1 t.2) pm

/-- Ordering on the stop-loss field: the stop never disappears, never
appears from nothing, and never decreases. -/
def slNondecreasing (p q : Position) : Prop :=
  match p.sl_price, q.sl_price with
  | some s, some t => s ≤ t
  | none, none => True
  | _, _ => False

/-- The decision of the C1 scenario: a 10 USDT entry request on BTCUSDT
(ai defaults sl 2% / tp 3% / trailing 1%). -/
def c1Decision : AITradeDecision :=
  { symbol := "BTCUSDT", action := "ENTRY", requested_trade_usdt := 10,
    sl_pct := some 2, tp_pct := some 3, use_trailing := true,
    trailing_sl_pct := 1 }

/-- The engine state of the C1 scenario: paper balance 5 USDT, no open
positions. -/
def c1State : EngState :=
  { paper_balance_usdt := 5, realized_pnl_today := 0, capital_usdt := 1000,
    bot_balance_usdt := 0, daily_start_equity := 1000,
    daily_date := some "2026-10-12", last_profit_split_date := none,
    pm := ⟨[], [], 0⟩ }

/-- A trailing-enabled bot position (entry 100, stop 99, trailing 1%,
peak 100) used to witness the trailing-stop facts. -/
def c2Pos : Position :=
  { id := 0, symbol := "BTCUSDT", source := "bot", entry_price := 100,
    qty := 1, current_price := 100, pnl_usdt := 0, pnl_percent := 0,
    tp_price := none, sl_price := some 99, use_trailing := true,
    trailing_sl_pct := 1, peak_price := 100, status := "open",
    exit_reason := none }

/-- A manual (display-only) position, used to witness that the close path
refuses manual positions. -/
def c7Manual : Position :=
  { id := 0, symbol := "ETHUSDT", source := "manual", entry_price := 100,
    qty := 1, current_price := 100, pnl_usdt := 0, pnl_percent := 0,
    tp_price := none, sl_price := none, use_trailing := false,
    trailing_sl_pct := 0, peak_price := 100, status := "open",
    exit_reason := none }

/-- A paper-mode engine state with balance 100 and no open positions. -/
def c10Start : EngState :=
  { paper_balance_usdt := 100, realized_pnl_today := 0, capital_usdt := 1000,
    bot_balance_usdt := 0, daily_start_equity := 1000,
    daily_date := some "2026-10-12", last_profit_split_date := none,
    pm := pmInit }

/-- State at the end of a profitable day (realized +10 USDT on
2026-10-11), before the rollover into 2026-10-12. -/
def c4WitnessState : EngState :=
  { paper_balance_usdt := 1000, realized_pnl_today := 10, capital_usdt := 1000,
    bot_balance_usdt := 0, daily_start_equity := 1000,
    daily_date := some "2026-10-11", last_profit_split_date := none,
    pm := ⟨[], [], 0⟩ }

/-- The C8 scenario position: entry 100, `tp_price` 103. -/
def c8Pos : Position :=
  { id := 0, symbol := "BTCUSDT", source := "bot", entry_price := 100,
    qty := 1, current_price := 100, pnl_usdt := 0, pnl_percent := 0,
    tp_price := some 103, sl_price := some 99, use_trailing := false,
    trailing_sl_pct := 0, peak_price := 100, status := "open",
    exit_reason := none }

end V1Bot

/-!
Theorems
-/

namespace V1Bot

/-! ## Facts about the per-position price update -/

theorem updatePos_symbol (price : ℚ) (p : Position) :
    (updatePos price p).symbol = p.symbol := by
  unfold updatePos
  cases hsl : p.sl_price <;> simp only [hsl] <;> split_ifs <;> rfl

theorem updatePos_status (price : ℚ) (p : Position) :
    (updatePos price p).status = p.status := by
  unfold updatePos
  cases hsl : p.sl_price <;> simp only [hsl] <;> split_ifs <;> rfl

theorem updatePos_source (price : ℚ) (p : Position) :
    (updatePos price p).source = p.source := by
  unfold updatePos
  cases hsl : p.sl_price <;> simp only [hsl] <;> split_ifs <;> rfl

theorem updatePos_entry (price : ℚ) (p : Position) :
    (updatePos price p).entry_price = p.entry_price := by
  unfold updatePos
  cases hsl : p.sl_price <;> simp only [hsl] <;> split_ifs <;> rfl

theorem updatePos_qty (price : ℚ) (p : Position) :
    (updatePos price p).qty = p.qty := by
  unfold updatePos
  cases hsl : p.sl_price <;> simp only [hsl] <;> split_ifs <;> rfl

theorem updatePos_current (price : ℚ) (p : Position) :
    (updatePos price p).current_price = price := by
  unfold updatePos
  cases hsl : p.sl_price <;> simp only [hsl] <;> split_ifs <;> rfl

theorem updatePos_pnl (price : ℚ) (p : Position) :
    (updatePos price p).pnl_usdt = (price - p.entry_price) * p.qty := by
  unfold updatePos
  cases hsl : p.sl_price <;> simp only [hsl] <;> split_ifs <;> rfl

theorem updatePos_id (price : ℚ) (p : Position) :
    (updatePos price p).id = p.id := by
  unfold updatePos
  cases hsl : p.sl_price <;> simp only [hsl] <;> split_ifs <;> rfl

/-! ## The trailing stop only ratchets up -/

theorem slNondecreasing_refl (p : Position) : slNondecreasing p p := by
  unfold slNondecreasing
  cases p.sl_price <;> simp

theorem slNondecreasing_trans {p q r : Position} (h1 : slNondecreasing p q)
    (h2 : slNondecreasing q r) : slNondecreasing p r := by
  unfold slNondecreasing at *
  cases hp : p.sl_price <;> cases hq : q.sl_price <;> cases hr : r.sl_price <;>
    simp_all <;> linarith

theorem updatePos_slNondecreasing (price : ℚ) (p : Position) :
    slNondecreasing p (updatePos price p) := by
  unfold updatePos slNondecreasing
  cases hsl : p.sl_price <;> simp only [hsl] <;> split_ifs <;> simp <;> linarith

theorem updatePrice_slForall2 (pm : PMState) (sym : String) (price : ℚ) :
    List.Forall₂ slNondecreasing pm.open_positions
      (updatePrice pm sym price).open_positions := by
  unfold updatePrice
  split_ifs
  · exact List.forall₂_same.mpr fun x _ => slNondecreasing_refl x
  · simp only
    rw [List.forall₂_map_right_iff]
    refine List.forall₂_same.mpr fun x _ => ?_
    by_cases h : (x.symbol == sym && x.status == "open") = true
    · rw [if_pos h]
      exact updatePos_slNondecreasing price x
    · rw [if_neg h]
      exact slNondecreasing_refl x

theorem forall2_sl_trans :
    ∀ {l1 l2 l3 : List Position}, List.Forall₂ slNondecreasing l1 l2 →
      List.Forall₂ slNondecreasing l2 l3 → List.Forall₂ slNondecreasing l1 l3 := by
  intro l1 l2 l3 h1 h2
  induction h1 generalizing l3 with
  | nil => cases h2; exact .nil
  | cons hab h ih =>
    cases h2 with
    | cons hbc h2t => exact .cons (slNondecreasing_trans hab hbc) (ih h2t)

theorem applyTicks_slForall2 (pm : PMState) (ticks : List (String × ℚ)) :
    List.Forall₂ slNondecreasing pm.open_positions
      (applyTicks pm ticks).open_positions := by
  induction ticks generalizing pm with
  | nil => exact List.forall₂_same.mpr fun x _ => slNondecreasing_refl x
  | cons t ts ih =>
    have hstep := updatePrice_slForall2 pm t.1 t.2
    have htail := ih (updatePrice pm t.1 t.2)
    exact forall2_sl_trans hstep htail

theorem updatePos_sl_change (price : ℚ) (p : Position)
    (h : (updatePos price p).sl_price ≠ p.sl_price) :
    p.source = "bot" ∧ p.use_trailing = true ∧ price > p.peak_price ∧
      p.trailing_sl_pct > 0 ∧
      (updatePos price p).sl_price = some (price * (1 - p.trailing_sl_pct / 100)) ∧
      ∀ s, p.sl_price = some s → s < price * (1 - p.trailing_sl_pct / 100) := by
  unfold updatePos at h ⊢
  cases hsl : p.sl_price with
  | none => simp only [hsl] at h ⊢ <;> split_ifs at h ⊢ <;> simp_all
  | some s =>
    simp only [hsl] at h ⊢
    split_ifs at h ⊢ with h1 h2 h3 h4
    all_goals simp_all

/-- C2: for every open position with trailing enabled and every sequence of
`update_price` calls, `sl_price` is monotonically non-decreasing, and a
single update raises it — to `price * (1 - trailing_pct / 100)` — only when
the tick price exceeds the recorded `peak_price` and the new value is
strictly greater than the current `sl_price` (on a bot-sourced,
trailing-enabled position). -/
theorem c2_trailing_stop_monotone (pm : PMState) (ticks : List (String × ℚ))
    (p : Position) (price : ℚ) :
    List.Forall₂ slNondecreasing pm.open_positions
      (applyTicks pm ticks).open_positions ∧
    ((updatePos price p).sl_price ≠ p.sl_price →
      p.source = "bot" ∧ p.use_trailing = true ∧ price > p.peak_price ∧
      p.trailing_sl_pct > 0 ∧
      (updatePos price p).sl_price = some (price * (1 - p.trailing_sl_pct / 100)) ∧
      ∀ s, p.sl_price = some s → s < price * (1 - p.trailing_sl_pct / 100)) :=
  ⟨applyTicks_slForall2 pm ticks, updatePos_sl_change price p⟩

/-- Witness for C2 at a concrete input: a tick at 200 on a position with
peak 100 / stop 99 / trailing 1% moves the stop to 198. -/
theorem c2_trailing_stop_monotone_witness :
    (updatePos 200 c2Pos).sl_price ≠ c2Pos.sl_price ∧
    (c2Pos.source = "bot" ∧ c2Pos.use_trailing = true ∧ (200 : ℚ) > c2Pos.peak_price ∧
      c2Pos.trailing_sl_pct > 0 ∧
      (updatePos 200 c2Pos).sl_price = some (200 * (1 - c2Pos.trailing_sl_pct / 100)) ∧
      ∀ s, c2Pos.sl_price = some s → s < 200 * (1 - c2Pos.trailing_sl_pct / 100)) := by
  have hne : (updatePos 200 c2Pos).sl_price ≠ c2Pos.sl_price := by
    norm_num [updatePos, c2Pos]
  exact ⟨hne, (c2_trailing_stop_monotone pmInit [] c2Pos 200).2 hne⟩

end V1Bot

namespace V1Bot

/-! ## C6: PnL exactness under price updates -/

/-- C6: after `update_price(symbol, price)` with a positive price, every
open position on that symbol carries `pnl_usdt = (current_price −
entry_price) × qty` exactly, with `current_price` equal to the tick
price. -/
theorem c6_pnl_exact_after_update (pm : PMState) (sym : String) (price : ℚ)
    (p2 : Position) (hprice : 0 < price) (hsym : sym ≠ "")
    (hmem : p2 ∈ (updatePrice pm sym price).open_positions)
    (hs : p2.symbol = sym) (hst : p2.status = "open") :
    p2.pnl_usdt = (p2.current_price - p2.entry_price) * p2.qty ∧
      p2.current_price = price := by
  unfold updatePrice at hmem
  have hc : ¬(price ≤ 0 ∨ sym = "") := by
    push_neg
    exact ⟨by linarith, hsym⟩
  rw [if_neg hc] at hmem
  simp only [List.mem_map] at hmem
  obtain ⟨p, hp, heq⟩ := hmem
  by_cases hcond : (p.symbol == sym && p.status == "open") = true
  · rw [if_pos hcond] at heq
    subst heq
    rw [updatePos_pnl, updatePos_current, updatePos_entry, updatePos_qty]
    exact ⟨rfl, rfl⟩
  · rw [if_neg hcond] at heq
    subst heq
    simp [hs, hst] at hcond

/-- Witness for C6: one open BTCUSDT position, a tick at 200. -/
theorem c6_pnl_exact_after_update_witness :
    ∃ p2 ∈ (updatePrice ⟨[c2Pos], [], 1⟩ "BTCUSDT" 200).open_positions,
      p2.pnl_usdt = (p2.current_price - p2.entry_price) * p2.qty ∧
        p2.current_price = 200 := by
  have hmem : updatePos 200 c2Pos ∈
      (updatePrice ⟨[c2Pos], [], 1⟩ "BTCUSDT" 200).open_positions := by
    norm_num [updatePrice, c2Pos, show ("BTCUSDT" : String) ≠ "" from by decide]
  refine ⟨updatePos 200 c2Pos, hmem, ?_⟩
  exact c6_pnl_exact_after_update ⟨[c2Pos], [], 1⟩ "BTCUSDT" 200 _
    (by norm_num) (by decide) hmem
    (by rw [updatePos_symbol]; rfl) (by rw [updatePos_status]; rfl)

/-! ## C7: close_position is terminal and safe against bad ids -/

/-- C7: closing a nonexistent (or already-closed, hence absent from the open
set) id, or a manual-sourced position, returns `None` and leaves the state
unchanged; a successful close removes the position from the open set and
prepends it — now `closed` — to the closed history exactly once. -/
theorem c7_close_terminal_safe (s : RiskSettings) (pm : PMState) (pid : Nat)
    (exit_price : ℚ) (reason : String) :
    ((∀ p ∈ pm.open_positions, p.id ≠ pid) →
        closePosition pm pid exit_price reason = none ∧
        pmStep s pm (.closePos pid exit_price reason) = pm) ∧
    (∀ pos, pm.open_positions.find? (fun p => p.id == pid) = some pos →
        pos.source = "manual" →
        closePosition pm pid exit_price reason = none ∧
        pmStep s pm (.closePos pid exit_price reason) = pm) ∧
    (∀ pm2 closed, closePosition pm pid exit_price reason = some (pm2, closed) →
        pm2.open_positions = pm.open_positions.filter (fun p => p.id != pid) ∧
        pm2.closed_positions = closed :: pm.closed_positions ∧
        closed.status = "closed" ∧
        (∀ p ∈ pm2.open_positions, p.id ≠ pid)) := by
  refine ⟨?_, ?_, ?_⟩
  · intro h
    have hfind : pm.open_positions.find? (fun p => p.id == pid) = none := by
      rw [List.find?_eq_none]
      intro p hp
      simpa using h p hp
    have hclose : closePosition pm pid exit_price reason = none := by
      unfold closePosition
      simp only [hfind]
    refine ⟨hclose, ?_⟩
    simp only [pmStep]
    rw [hclose]
  · intro pos hfind hman
    have hclose : closePosition pm pid exit_price reason = none := by
      unfold closePosition
      simp only [hfind]
      split_ifs with h1 h2
      · rfl
      · rfl
      · exact absurd (by simp [hman]) h2
    refine ⟨hclose, ?_⟩
    simp only [pmStep]
    rw [hclose]
  · intro pm2 closed h
    unfold closePosition at h
    cases hfind : pm.open_positions.find? (fun p => p.id == pid) with
    | none => simp [hfind] at h
    | some pos =>
      simp only [hfind] at h
      split_ifs at h with h1 h2
      all_goals simp only [Option.some.injEq, Prod.mk.injEq] at h
      all_goals obtain ⟨hpm2, hclosed⟩ := h
      all_goals refine ⟨by rw [← hpm2], by rw [← hpm2, ← hclosed], by rw [← hclosed], ?_⟩
      all_goals intro p hp
      all_goals rw [← hpm2] at hp
      all_goals simp only [List.mem_filter] at hp
      all_goals simpa using hp.2

/-- Witness for C7: a missing id and a manual position both fail without
effect. -/
theorem c7_close_terminal_safe_witness :
    (closePosition pmInit 5 100 "TP" = none ∧
      pmStep {} pmInit (.closePos 5 100 "TP") = pmInit) ∧
    (closePosition ⟨[c7Manual], [], 1⟩ 0 100 "TP" = none ∧
      pmStep {} (⟨[c7Manual], [], 1⟩ : PMState) (.closePos 0 100 "TP") =
        (⟨[c7Manual], [], 1⟩ : PMState)) := by
  constructor
  · exact (c7_close_terminal_safe {} pmInit 5 100 "TP").1 (by simp [pmInit])
  · exact (c7_close_terminal_safe {} ⟨[c7Manual], [], 1⟩ 0 100 "TP").2.1
      c7Manual (by rfl) (by rfl)

/-! ## C8: TP / SL exit recommendations -/

/-- C8: for every open bot position on the queried symbol,
`check_exit_recommendations` returns `(id, "TP")` when the tick price
reaches or exceeds `tp_price`, and `(id, "SL")` / `(id, "TRAILING_SL")`
(by the trailing flag) when the price falls to or below `sl_price` and the
take profit was not hit (TP has precedence in the code). -/
theorem c8_exit_recommendations (pm : PMState) (sym : String) (price : ℚ)
    (allow : Bool) (p : Position)
    (hprice : 0 < price) (hmem : p ∈ pm.open_positions) (hst : p.status = "open")
    (hsrc : p.source = "bot") (hsym : p.symbol = sym) :
    (∀ tp, p.tp_price = some tp → price ≥ tp →
      (p.id, "TP") ∈ checkExitRecommendations pm sym price allow) ∧
    (∀ sl, p.sl_price = some sl → price ≤ sl →
      (p.tp_price = none ∨ ∃ tp, p.tp_price = some tp ∧ price < tp) →
      (p.id, if p.use_trailing && allow then "TRAILING_SL" else "SL") ∈
        checkExitRecommendations pm sym price allow) := by
  unfold checkExitRecommendations
  rw [if_neg (not_le.mpr hprice)]
  constructor
  · intro tp htp hge
    rw [List.mem_filterMap]
    refine ⟨p, hmem, ?_⟩
    simp [hst, hsym, hsrc, htp, hge]
  · intro sl hsl hle htpmiss
    rw [List.mem_filterMap]
    refine ⟨p, hmem, ?_⟩
    rcases htpmiss with htp | ⟨tp, htp, hlt⟩
    · simp [hst, hsym, hsrc, htp, hsl, hle]
    · simp [hst, hsym, hsrc, htp, hsl, hle, not_le.mpr hlt]

/-- Witness for C8 (the spec scenario): entry 100, `tp_price` 103, tick
103.5 yields the recommendation `(id, "TP")`. -/
theorem c8_exit_recommendations_witness :
    (c8Pos.id, "TP") ∈
      checkExitRecommendations ⟨[c8Pos], [], 1⟩ "BTCUSDT" (207 / 2) true := by
  refine (c8_exit_recommendations ⟨[c8Pos], [], 1⟩ "BTCUSDT" (207 / 2) true c8Pos
    (by norm_num) (by simp) (by rfl) (by rfl) (by rfl)).1 103 (by rfl) ?_
  norm_num

end V1Bot

namespace V1Bot

/-! ## C3: at most one open bot position per symbol -/

theorem hasOpenBotPosition_false_count (pm : PMState) (sym : String)
    (h : hasOpenBotPosition pm sym = false) : openBotCount pm sym = 0 := by
  unfold hasOpenBotPosition at h
  unfold openBotCount
  rw [List.length_eq_zero, List.filter_eq_nil]
  intro p hp
  simpa using List.any_eq_false.mp h p hp

theorem length_filter_map_of_pred (l : List Position) (g : Position → Position)
    (f : Position → Bool) (h : ∀ p, f (g p) = f p) :
    ((l.map g).filter f).length = (l.filter f).length := by
  induction l with
  | nil => rfl
  | cons a t ih =>
    simp only [List.map_cons, List.filter_cons, h a]
    cases f a <;> simp [ih]

theorem openBotCount_updatePrice (pm : PMState) (sym0 : String) (price : ℚ)
    (sym : String) :
    openBotCount (updatePrice pm sym0 price) sym = openBotCount pm sym := by
  unfold updatePrice
  split_ifs with hg
  · rfl
  · unfold openBotCount
    simp only
    refine length_filter_map_of_pred _ _ _ fun p => ?_
    by_cases hc : (p.symbol == sym0 && p.status == "open") = true
    · rw [if_pos hc, updatePos_symbol, updatePos_status, updatePos_source]
    · rw [if_neg hc]

theorem openPosition_openBotCount (s : RiskSettings) (pm : PMState)
    (sym0 : String) (e q : ℚ) (src : String) (tp sl : Option ℚ)
    (ut : Option Bool) (tr : Option ℚ) (pm2 : PMState) (pos : Position)
    (h : openPosition s pm sym0 e q src tp sl ut tr = .ok (pm2, pos))
    (sym : String) (hle : openBotCount pm sym ≤ 1) :
    openBotCount pm2 sym ≤ 1 := by
  unfold openPosition at h
  by_cases h1 : (e ≤ 0 ∨ q ≤ 0 ∨ sym0 = "")
  · rw [if_pos h1] at h
    exact absurd h (by simp)
  rw [if_neg h1] at h
  by_cases h2 : (src == "bot" && hasOpenBotPosition pm sym0) = true
  · rw [if_pos h2] at h
    exact absurd h (by simp)
  rw [if_neg h2] at h
  simp only [Except.ok.injEq, Prod.mk.injEq] at h
  obtain ⟨hpm2, hpos⟩ := h
  have hsy : pos.symbol = sym0 := by rw [← hpos]
  have hst : pos.status = "open" := by rw [← hpos]
  have hsr : pos.source = src := by rw [← hpos]
  have hopen : pm2.open_positions = pm.open_positions ++ [pos] := by
    rw [← hpm2, hpos]
  unfold openBotCount
  rw [hopen, List.filter_append, List.length_append]
  by_cases hf : (pos.symbol == sym && pos.status == "open" && pos.source == "bot") = true
  · simp only [Bool.and_eq_true, beq_iff_eq] at hf
    have hsyeq : sym0 = sym := hsy ▸ hf.1.1
    have hsreq : src = "bot" := hsr ▸ hf.2
    have hno : hasOpenBotPosition pm sym0 = false := by
      cases hb : hasOpenBotPosition pm sym0 with
      | false => rfl
      | true => exact absurd (by simp [hsreq, hb]) h2
    have h0 : (pm.open_positions.filter
        (fun p => p.symbol == sym && p.status == "open" && p.source == "bot")).length = 0 := by
      have hz := hasOpenBotPosition_false_count pm sym0 hno
      unfold openBotCount at hz
      rw [hsyeq] at hz
      exact hz
    rw [h0]
    have hone : (List.filter
        (fun p => p.symbol == sym && p.status == "open" && p.source == "bot")
        [pos]).length ≤ 1 := by
      rw [List.filter_cons]
      split_ifs <;> simp
    simpa using hone
  · have hzero : (List.filter
        (fun p => p.symbol == sym && p.status == "open" && p.source == "bot")
        [pos]).length = 0 := by
      rw [List.filter_cons]
      rw [if_neg hf]
      rfl
    rw [hzero]
    simpa using hle

theorem closePosition_some_open (pm : PMState) (pid : Nat) (xp : ℚ) (r : String)
    (pm2 : PMState) (closed : Position)
    (h : closePosition pm pid xp r = some (pm2, closed)) :
    pm2.open_positions = pm.open_positions.filter (fun p => p.id != pid) := by
  unfold closePosition at h
  cases hfind : pm.open_positions.find? (fun p => p.id == pid) with
  | none => simp [hfind] at h
  | some pos =>
    simp only [hfind] at h
    split_ifs at h
    all_goals simp only [Option.some.injEq, Prod.mk.injEq] at h
    all_goals rw [← h.1]

theorem pmStep_openBotCount (s : RiskSettings) (pm : PMState) (op : PMOp)
    (sym : String) (h : openBotCount pm sym ≤ 1) :
    openBotCount (pmStep s pm op) sym ≤ 1 := by
  cases op with
  | openPos sym0 e q src tp sl ut tr =>
    simp only [pmStep]
    cases hro : openPosition s pm sym0 e q src tp sl ut tr with
    | error msg => exact h
    | ok res =>
      exact openPosition_openBotCount s pm sym0 e q src tp sl ut tr res.1 res.2
        (by rw [hro]) sym h
  | closePos pid xp r =>
    simp only [pmStep]
    cases hc : closePosition pm pid xp r with
    | none => exact h
    | some res =>
      have hopen := closePosition_some_open pm pid xp r res.1 res.2 (by rw [hc])
      refine le_trans ?_ h
      unfold openBotCount
      rw [hopen]
      exact ((List.filter_sublist _).filter _).length_le
  | tick sym0 price =>
    simp only [pmStep]
    rw [openBotCount_updatePrice]
    exact h

/-- C3: at every state reachable by any sequence of open / close / tick
operations there is at most one open bot-sourced position per symbol, and
`open_position` raises the duplicate error whenever a bot position is
already open on the symbol. -/
theorem c3_at_most_one_open_bot_per_symbol (s : RiskSettings) (ops : List PMOp)
    (sym : String) (pm : PMState) (e q : ℚ) (tp sl : Option ℚ)
    (ut : Option Bool) (tr : Option ℚ)
    (he : 0 < e) (hq : 0 < q) (hsym : sym ≠ "") :
    openBotCount (pmRun s ops) sym ≤ 1 ∧
    (hasOpenBotPosition pm sym = true →
      openPosition s pm sym e q "bot" tp sl ut tr =
        .error ("Bot already has open position on " ++ sym)) := by
  constructor
  · unfold pmRun
    suffices hgen : ∀ pm0, openBotCount pm0 sym ≤ 1 →
        openBotCount (ops.foldl (pmStep s) pm0) sym ≤ 1 by
      refine hgen pmInit ?_
      simp [openBotCount, pmInit]
    induction ops with
    | nil => intro pm0 h0; exact h0
    | cons o t ih =>
      intro pm0 h0
      exact ih _ (pmStep_openBotCount s pm0 o sym h0)
  · intro hdup
    unfold openPosition
    rw [if_neg (by push_neg; exact ⟨by linarith, by linarith, hsym⟩)]
    rw [if_pos (by simp [hdup])]

/-- Witness for C3: run open-open-close on BTCUSDT; the invariant holds
and the duplicate open errors out. -/
theorem c3_at_most_one_open_bot_per_symbol_witness :
    openBotCount (pmRun {} [
      .openPos "BTCUSDT" 100 1 "bot" none none none none,
      .openPos "BTCUSDT" 100 1 "bot" none none none none,
      .closePos 0 100 "TP"]) "BTCUSDT" ≤ 1 ∧
    (openPosition {} ⟨[c2Pos], [], 1⟩ "BTCUSDT" 100 1 "bot" none none none none =
      .error ("Bot already has open position on " ++ "BTCUSDT")) := by
  constructor
  · exact (c3_at_most_one_open_bot_per_symbol {} _ "BTCUSDT" pmInit 100 1
      none none none none (by norm_num) (by norm_num) (by decide)).1
  · exact (c3_at_most_one_open_bot_per_symbol {} [] "BTCUSDT" ⟨[c2Pos], [], 1⟩
      100 1 none none none none (by norm_num) (by norm_num) (by decide)).2
      (by rfl)

end V1Bot

namespace V1Bot

/-! ## C4: daily rollover applies at most once per date -/

theorem ensureDailyRollover_dd (today : String) (m : ℚ) (st : EngState) :
    (ensureDailyRollover today m st).daily_date = some today := by
  unfold ensureDailyRollover
  split
  · rfl
  · next prev heq =>
    split_ifs with h1 h2
    · rfl
    · rw [heq, h2]
    · rfl

theorem ensureDailyRollover_fixed (today : String) (m : ℚ) (st2 : EngState)
    (hdd : st2.daily_date = some today) (hne : today ≠ "") :
    ensureDailyRollover today m st2 = st2 := by
  unfold ensureDailyRollover
  split
  · next heq => rw [heq] at hdd; exact absurd hdd (by simp)
  · next prev heq =>
    rw [heq] at hdd
    have hpt : prev = today := by injection hdd
    subst hpt
    rw [if_neg hne, if_pos rfl]

/-- C4: the daily rollover is idempotent on a given date (`daily_date`
guard), the profit split is idempotent once `last_profit_split_date` marks
the date, and when the split does apply it credits half of a profitable
day's realized PnL to the bot-balance accumulator (and half to capital)
while a losing day's full loss goes to capital only. -/
theorem c4_rollover_and_split_once_per_date (today : String) (m : ℚ)
    (st : EngState) (d : String) (htoday : today ≠ "") :
    ensureDailyRollover today m (ensureDailyRollover today m st) =
      ensureDailyRollover today m st ∧
    (st.daily_date = some d → st.last_profit_split_date = some d →
      applyDailyProfitSplit m st = st) ∧
    (st.daily_date = some d → d ≠ "" → st.last_profit_split_date.getD "" ≠ d →
      st.capital_usdt ≠ 0 → 0 < st.realized_pnl_today →
      (applyDailyProfitSplit m st).bot_balance_usdt =
          st.bot_balance_usdt + st.realized_pnl_today * (1 / 2) ∧
        (applyDailyProfitSplit m st).capital_usdt =
          st.capital_usdt + st.realized_pnl_today * (1 / 2) ∧
        (applyDailyProfitSplit m st).last_profit_split_date = some d) ∧
    (st.daily_date = some d → d ≠ "" → st.last_profit_split_date.getD "" ≠ d →
      st.capital_usdt ≠ 0 → st.realized_pnl_today < 0 →
      (applyDailyProfitSplit m st).capital_usdt =
          st.capital_usdt + st.realized_pnl_today ∧
        (applyDailyProfitSplit m st).bot_balance_usdt = st.bot_balance_usdt) := by
  refine ⟨?_, ?_, ?_, ?_⟩
  · exact ensureDailyRollover_fixed today m _ (ensureDailyRollover_dd today m st)
      htoday
  · intro hdd hls
    unfold applyDailyProfitSplit
    rw [hdd, hls]
    by_cases hd0 : d = "" <;> simp [hd0]
  · intro hdd hd0 hls hcap hpnl
    unfold applyDailyProfitSplit
    rw [hdd]
    simp only [Option.getD_some]
    rw [if_neg hd0, if_neg (by simpa using hls)]
    simp only [if_neg hcap, if_pos hpnl]
    refine ⟨?_, ?_, ?_⟩ <;> first | rfl | trivial
  · intro hdd hd0 hls hcap hpnl
    unfold applyDailyProfitSplit
    rw [hdd]
    simp only [Option.getD_some]
    rw [if_neg hd0, if_neg (by simpa using hls)]
    have hnp : ¬(st.realized_pnl_today > 0) := by linarith
    simp only [if_neg hcap, if_neg hnp, if_pos hpnl]
    refine ⟨?_, ?_⟩ <;> first | rfl | trivial

/-- Witness for C4: a concrete state on 2026-10-11 rolled to 2026-10-12
with a 10 USDT profitable day. -/
theorem c4_rollover_and_split_once_per_date_witness :
    (ensureDailyRollover "2026-10-12" 1000
        (ensureDailyRollover "2026-10-12" 1000 c4WitnessState) =
      ensureDailyRollover "2026-10-12" 1000 c4WitnessState) ∧
    ((applyDailyProfitSplit 1000 c4WitnessState).bot_balance_usdt =
        c4WitnessState.bot_balance_usdt + 10 * (1 / 2) ∧
      (applyDailyProfitSplit 1000 c4WitnessState).capital_usdt =
        c4WitnessState.capital_usdt + 10 * (1 / 2) ∧
      (applyDailyProfitSplit 1000 c4WitnessState).last_profit_split_date =
        some "2026-10-11") := by
  constructor
  · exact (c4_rollover_and_split_once_per_date "2026-10-12" 1000 c4WitnessState
      "2026-10-11" (by decide)).1
  · have h := (c4_rollover_and_split_once_per_date "2026-10-12" 1000
      c4WitnessState "2026-10-11" (by decide)).2.2.1 (by rfl) (by decide)
      (by decide) (by norm_num [c4WitnessState]) (by norm_num [c4WitnessState])
    simpa [c4WitnessState] using h

end V1Bot

namespace V1Bot

/-! ## C5: reconnect backoff index behaviour -/

theorem getD_length_sub_one_eq_getLastD (l : List Nat) (h : l ≠ []) :
    l.getD (l.length - 1) 0 = l.getLastD 0 := by
  cases l with
  | nil => simp at h
  | cons a t =>
    rw [List.getD_eq_getElem?_getD, List.getLastD_eq_getLast?,
      List.getLast?_eq_getElem?]

/-- C5: the reconnect index resets to 0 on a successful connection
(`_on_open`) and on a forced reconnect (watch-set change); otherwise one
loop iteration sleeps `ws_backoff_sec[min(index, len-1)]` and increments
the index, so the delay follows the configured sequence and caps at its
last element; after two failures and one success the index is 0. -/
theorem c5_reconnect_backoff_index (cfg : WsConfig) (idx : Nat) (a : WsAttempt)
    (hne : cfg.ws_backoff_sec ≠ []) :
    (a.forced = true → (wsLoopStep cfg idx a).1 = 0) ∧
    wsOnOpen idx = 0 ∧
    (a = ⟨false, false⟩ →
      wsLoopStep cfg idx a = (idx + 1, some (backoffDelay cfg idx))) ∧
    (idx < cfg.ws_backoff_sec.length →
      backoffDelay cfg idx = cfg.ws_backoff_sec.getD idx 0) ∧
    (cfg.ws_backoff_sec.length - 1 ≤ idx →
      backoffDelay cfg idx = cfg.ws_backoff_sec.getLastD 0) ∧
    wsOnOpen (wsRun cfg 0 [⟨false, false⟩, ⟨false, false⟩]) = 0 := by
  refine ⟨?_, rfl, ?_, ?_, ?_, rfl⟩
  · intro hf
    simp [wsLoopStep, hf]
  · intro ha
    subst ha
    simp [wsLoopStep]
  · intro hlt
    unfold backoffDelay
    rw [Nat.min_eq_left (by omega)]
  · intro hge
    unfold backoffDelay
    rw [Nat.min_eq_right hge]
    exact getD_length_sub_one_eq_getLastD cfg.ws_backoff_sec hne

/-- Witness for C5 with the default backoff list `[2, 5, 10, 15]`. -/
theorem c5_reconnect_backoff_index_witness :
    wsLoopStep {} 0 ⟨false, false⟩ = (1, some (backoffDelay {} 0)) ∧
    backoffDelay {} 0 = 2 ∧ backoffDelay {} 7 = 15 ∧
    wsOnOpen (wsRun {} 0 [⟨false, false⟩, ⟨false, false⟩]) = 0 := by
  refine ⟨(c5_reconnect_backoff_index {} 0 ⟨false, false⟩ (by decide)).2.2.1 rfl,
    ?_, ?_, (c5_reconnect_backoff_index {} 0 ⟨false, false⟩ (by decide)).2.2.2.2.2⟩
  · have h := (c5_reconnect_backoff_index {} 0 ⟨false, false⟩ (by decide)).2.2.2.1
      (by decide)
    simpa using h
  · have h := (c5_reconnect_backoff_index {} 7 ⟨false, false⟩ (by decide)).2.2.2.2.1
      (by decide)
    simpa using h

end V1Bot

namespace V1Bot

/-! ## C9: warmup relaxation of the decision gate -/

/-- C9 counterexample: with `min_valid_signals = 2`, inside the warmup
window (elapsed 0 < 300) an ENTRY signal with score 1 — far above even the
unrelaxed bar — is still rejected with NOT_ENOUGH_VALID_SIGNALS, exactly as
outside the window: the valid-signal-count requirement is not relaxed
during warmup (`min_signals` is never touched by the warmup branch,
core/ai_orchestrator.py lines 163-169). -/
theorem c9_counterexample_signal_count_not_relaxed :
    (0 : ℚ) < ({ min_valid_signals := 2 } : AiConfig).warmup_relax_sec ∧
    effectiveMinSignals { min_valid_signals := 2 } 0 = 2 ∧
    evaluateGate { min_valid_signals := 2 } 0 "ENTRY" 1 =
      ⟨"HOLD", some "NOT_ENOUGH_VALID_SIGNALS"⟩ ∧
    evaluateGate { min_valid_signals := 2 } 1000 "ENTRY" 1 =
      ⟨"HOLD", some "NOT_ENOUGH_VALID_SIGNALS"⟩ := by
  refine ⟨by norm_num, rfl, ?_, ?_⟩ <;>
    norm_num [evaluateGate, effectiveMinScore, effectiveMinSignals, validCount,
      show (("ENTRY" : String) == "EXIT") = false from by decide,
      show (("ENTRY" : String) == "SELL") = false from by decide,
      show (("ENTRY" : String) == "CLOSE") = false from by decide,
      show (("ENTRY" : String) == "ENTRY") = true from by decide]

/-- C9 amended: during the warmup window only the minimum-score bar is
relaxed (lowered by the configured delta, clamped at 0); the minimum
valid-signal-count requirement is unchanged by warmup; outside the window
an ENTRY decision requires score ≥ the unrelaxed minimum and valid-signal
count ≥ the minimum. -/
theorem c9_warmup_relaxes_score_only (cfg : AiConfig) (elapsed score : ℚ) :
    (elapsed < cfg.warmup_relax_sec →
      effectiveMinScore cfg elapsed =
        max 0 (cfg.min_score - cfg.warmup_relax_score_delta)) ∧
    (¬elapsed < cfg.warmup_relax_sec →
      effectiveMinScore cfg elapsed = cfg.min_score) ∧
    effectiveMinSignals cfg elapsed = cfg.min_valid_signals ∧
    (¬elapsed < cfg.warmup_relax_sec →
      (evaluateGate cfg elapsed "ENTRY" score = ⟨"ENTRY", none⟩ ↔
        cfg.min_score ≤ score ∧ cfg.min_valid_signals ≤ validCount)) := by
  refine ⟨?_, ?_, rfl, ?_⟩
  · intro hw
    unfold effectiveMinScore
    rw [if_pos hw]
  · intro hw
    unfold effectiveMinScore
    rw [if_neg hw]
  · intro hw
    unfold evaluateGate
    rw [show (("ENTRY" : String) == "EXIT" || ("ENTRY" : String) == "SELL" ||
      ("ENTRY" : String) == "CLOSE") = false from by decide]
    rw [show (!(("ENTRY" : String) == "ENTRY" || ("ENTRY" : String) == "BUY" ||
      ("ENTRY" : String) == "LONG")) = false from by decide]
    simp only [Bool.false_eq_true, if_false]
    have hms : effectiveMinScore cfg elapsed = cfg.min_score := by
      unfold effectiveMinScore
      rw [if_neg hw]
    rw [hms]
    unfold effectiveMinSignals
    split_ifs with h1 h2
    · simp only [GateResult.mk.injEq]
      constructor
      · intro hcontr
        exact absurd hcontr.1 (by decide)
      · intro hc
        exact absurd hc.1 (not_le.mpr h1)
    · simp only [GateResult.mk.injEq]
      constructor
      · intro hcontr
        exact absurd hcontr.1 (by decide)
      · intro hc
        exact absurd hc.2 (not_le.mpr h2)
    · simp only [GateResult.mk.injEq]
      constructor
      · intro _
        exact ⟨not_lt.mp h1, not_lt.mp h2⟩
      · intro _
        trivial

/-- Witness for C9 with the default gate configuration, outside warmup. -/
theorem c9_warmup_relaxes_score_only_witness :
    evaluateGate {} 1000 "ENTRY" 1 = ⟨"ENTRY", none⟩ ∧
    effectiveMinSignals {} 1000 = ({} : AiConfig).min_valid_signals := by
  refine ⟨((c9_warmup_relaxes_score_only {} 1000 1).2.2.2 (by norm_num)).mpr
    ⟨by norm_num, by norm_num [validCount]⟩,
    (c9_warmup_relaxes_score_only {} 1000 1).2.2.1⟩

end V1Bot

namespace V1Bot

/-! ## C10: paper-mode entry/close round trip -/

theorem find?_append_singleton_fresh (l : List Position) (pos : Position)
    (pid : Nat) (hfresh : ∀ p ∈ l, p.id ≠ pid) (hpos : pos.id = pid) :
    (l ++ [pos]).find? (fun p => p.id == pid) = some pos := by
  induction l with
  | nil => simp [List.find?, hpos]
  | cons a t ih =>
    have ha : (a.id == pid) = false := by
      simpa using hfresh a (List.mem_cons_self a t)
    rw [List.cons_append, List.find?_cons_of_neg _ (by simp [ha])]
    exact ih fun p hp => hfresh p (List.mem_cons_of_mem a hp)

theorem openPosition_ok (s : RiskSettings) (pm : PMState) (sym : String)
    (e q : ℚ) (src : String) (tp sl : Option ℚ) (ut : Option Bool)
    (tr : Option ℚ) (h1 : ¬(e ≤ 0 ∨ q ≤ 0 ∨ sym = ""))
    (h2 : ¬((src == "bot") && hasOpenBotPosition pm sym) = true) :
    ∃ pos : Position,
      openPosition s pm sym e q src tp sl ut tr =
        .ok ({ pm with open_positions := pm.open_positions ++ [pos],
                       nextId := pm.nextId + 1 }, pos) ∧
      pos.id = pm.nextId ∧ pos.symbol = sym ∧ pos.source = src ∧
      pos.entry_price = e ∧ pos.qty = q ∧ pos.status = "open" := by
  unfold openPosition
  rw [if_neg h1, if_neg h2]
  exact ⟨_, rfl, rfl, rfl, rfl, rfl, rfl, rfl⟩

/-- C10: in paper mode, a bot entry debits exactly `entry_price × qty`, and
closing the position at the same price credits exactly `exit_price × qty`,
so for every starting balance sufficient for the entry the paper balance is
restored exactly. -/
theorem c10_paper_round_trip (cfg : EngCfg) (st : EngState) (sym : String)
    (p q : ℚ) (tp sl : Option ℚ) (ut : Bool) (tr : ℚ) (reason : String)
    (hsym : sym ≠ "") (hp : 0 < p) (hq : 0 < q)
    (hbot : hasOpenBotPosition st.pm sym = false)
    (hfresh : ∀ pos ∈ st.pm.open_positions, pos.id ≠ st.pm.nextId)
    (hsolv : p * q ≤ st.paper_balance_usdt) :
    ∃ st1 : EngState,
      executeEntry cfg st sym p q tp sl ut tr = (st1, .opened st.pm.nextId) ∧
      st1.paper_balance_usdt = st.paper_balance_usdt - p * q ∧
      (executeClose st1 st.pm.nextId p reason).paper_balance_usdt =
        st.paper_balance_usdt := by
  obtain ⟨pos, hok, hid, hsy, hsr, hep, hqt, hstt⟩ :=
    openPosition_ok cfg.risk st.pm sym p q "bot" (optTruthy tp) (optTruthy sl)
      (some (ut && decide (tr > 0))) (some tr)
      (by push_neg; exact ⟨hp, hq, hsym⟩) (by simp [hbot])
  have hnot : ¬(p * q > st.paper_balance_usdt + 1 / 1000000000) := by
    push_neg
    linarith
  have hfind : (({ st.pm with
      open_positions := st.pm.open_positions ++ [pos],
      nextId := st.pm.nextId + 1 } : PMState)).open_positions.find?
        (fun x => x.id == st.pm.nextId) = some pos := by
    simp only []
    exact find?_append_singleton_fresh _ pos _ hfresh hid
  unfold executeEntry
  rw [if_neg hnot]
  simp only []
  rw [hok]
  simp only []
  refine ⟨_, by rw [hid], ?_, ?_⟩
  · show max 0 (st.paper_balance_usdt - p * q) = st.paper_balance_usdt - p * q
    rw [max_eq_right (by linarith)]
  · unfold executeClose
    simp only [hfind]
    rw [if_neg (by simp [hsr]), if_neg (by rw [hqt]; exact not_le.mpr hq)]
    unfold closePosition
    simp only [hfind]
    rw [if_neg (by simp [hstt]), if_neg (by simp [hsr])]
    show max 0 (st.paper_balance_usdt - p * q) + pos.qty * p =
      st.paper_balance_usdt
    rw [hqt, max_eq_right (by linarith)]
    ring

/-- Witness for C10: balance 100, entry at price 50 for qty 2, close at the
same price restores 100. -/
theorem c10_paper_round_trip_witness :
    ∃ st1 : EngState,
      executeEntry {} c10Start "BTCUSDT" 50 2 none none false 0 =
        (st1, .opened 0) ∧
      st1.paper_balance_usdt = 100 - 50 * 2 ∧
      (executeClose st1 0 50 "TP").paper_balance_usdt = 100 := by
  have h := c10_paper_round_trip {} c10Start "BTCUSDT" 50 2 none none false 0
    "TP" (by decide) (by norm_num) (by norm_num) (by rfl)
    (by intro pos hpos; simp [c10Start, pmInit] at hpos) (by norm_num [c10Start])
  simpa [c10Start, pmInit] using h

end V1Bot

namespace V1Bot

/-! ## C1: paper-mode entry solvency -/

theorem roundHalfEvenNonneg_eq_of_lt (q : ℚ) (n : ℤ) (h1 : (n : ℚ) ≤ q)
    (h2 : q - n < 1 / 2) : roundHalfEvenNonneg q = n := by
  have hfl : (q.num / (q.den : ℤ)) = ⌊q⌋ := (@Rat.floor_def q).symm
  have hn : ⌊q⌋ = n := by
    rw [Int.floor_eq_iff]
    constructor
    · exact h1
    · push_cast
      linarith
  unfold roundHalfEvenNonneg
  simp only [hfl, hn]
  rw [if_neg (by linarith), if_pos h2]

theorem roundHalfEvenNonneg_eq_of_gt (q : ℚ) (n : ℤ) (h1 : (n : ℚ) ≤ q)
    (h2 : q < (n : ℚ) + 1) (h3 : 1 / 2 < q - n) :
    roundHalfEvenNonneg q = n + 1 := by
  have hfl : (q.num / (q.den : ℤ)) = ⌊q⌋ := (@Rat.floor_def q).symm
  have hn : ⌊q⌋ = n := by
    rw [Int.floor_eq_iff]
    exact ⟨h1, by push_cast; linarith⟩
  unfold roundHalfEvenNonneg
  simp only [hfl, hn]
  rw [if_pos h3]

/-- C1 counterexample: the overdrawing request (10 USDT against a 5 USDT
paper balance) at price 50000 is **not** rejected — it is clipped to the
balance and executed: a position opens and the balance drops to 0
(`req_usdt = min(req_usdt, paper_bal)`, core/trading_engine.py line 534). -/
theorem c1_counterexample_clipped_entry_accepted :
    c1Decision.requested_trade_usdt > c1State.paper_balance_usdt ∧
    (applyAiDecision {} true c1Decision 50000 c1State).2 = .entryOpened 0 ∧
    (applyAiDecision {} true c1Decision 50000 c1State).1.paper_balance_usdt = 0 ∧
    (applyAiDecision {} true c1Decision 50000 c1State).1.pm.open_positions.length
      = 1 := by
  have hq : roundQty6 (1 / 10000) = 1 / 10000 := by
    unfold roundQty6
    rw [roundHalfEvenNonneg_eq_of_lt ((1 : ℚ) / 10000 * 1000000) 100 (by norm_num)
      (by norm_num)]
    norm_num
  refine ⟨by norm_num [c1Decision, c1State], ?_, ?_, ?_⟩ <;>
    norm_num [applyAiDecision, c1Decision, c1State, updatePrice,
      checkExitRecommendations, executeEntry, openPosition, hasOpenBotPosition,
      optTruthy, hq, show ¬(("BTCUSDT" : String) = "") from by decide]

/-- C1 amended: in paper mode an entry request larger than the paper
balance is clipped down to the balance (not rejected outright); the entry
is rejected — with no side effect — only when the quantity-rounded trade
value still exceeds the balance by more than the `1e-9` tolerance (the
solvency check of `_execute_entry`).  The paper balance never goes
negative.  In the spec scenario (balance 5, request 10 on BTCUSDT at price
65000) the 6-decimal quantity rounding lifts the clipped trade value to
5.005 USDT, so the solvency check rejects the entry and ledger and balance
are unchanged; at price 50000 the same request is instead executed at the
clipped value 5. -/
theorem c1_overdrawing_entry_clipped_then_solvency (cfg : EngCfg)
    (st : EngState) (sym : String) (price qty : ℚ) (tp sl : Option ℚ)
    (ut : Bool) (tr : ℚ) :
    applyAiDecision {} true c1Decision 65000 c1State =
      (c1State, .entryRejected "PAPER_INSUFFICIENT_BAL") ∧
    (price * qty > st.paper_balance_usdt + 1 / 1000000000 →
      executeEntry cfg st sym price qty tp sl ut tr =
        (st, .rejected "PAPER_INSUFFICIENT_BAL")) ∧
    (0 ≤ st.paper_balance_usdt → ∀ st2 outc,
      executeEntry cfg st sym price qty tp sl ut tr = (st2, outc) →
      0 ≤ st2.paper_balance_usdt) ∧
    ((applyAiDecision {} true c1Decision 50000 c1State).2 = .entryOpened 0 ∧
      (applyAiDecision {} true c1Decision 50000 c1State).1.pm.open_positions.map
        (fun pos => pos.entry_price * pos.qty) = [5]) := by
  refine ⟨?_, ?_, ?_, ?_, ?_⟩
  · have hq : roundQty6 (1 / 13000) = 77 / 1000000 := by
      unfold roundQty6
      rw [roundHalfEvenNonneg_eq_of_gt ((1 : ℚ) / 13000 * 1000000) 76
        (by norm_num) (by norm_num) (by norm_num)]
      norm_num
    norm_num [applyAiDecision, c1Decision, c1State, updatePrice,
      checkExitRecommendations, executeEntry, hq,
      show ¬(("BTCUSDT" : String) = "") from by decide]
  · intro hgt
    unfold executeEntry
    rw [if_pos hgt]
  · intro h0 st2 outc h
    unfold executeEntry at h
    simp only [] at h
    split_ifs at h with hgt
    · simp only [Prod.mk.injEq] at h
      rw [← h.1]
      exact h0
    · cases hro : openPosition cfg.risk st.pm sym price qty "bot" (optTruthy tp)
          (optTruthy sl) (some (ut && decide (tr > 0))) (some tr) with
      | error e =>
        rw [hro] at h
        simp only [Prod.mk.injEq] at h
        rw [← h.1]
        exact le_max_left 0 _
      | ok pr =>
        rw [hro] at h
        simp only [Prod.mk.injEq] at h
        rw [← h.1]
        exact le_max_left 0 _
  · have hq : roundQty6 (1 / 10000) = 1 / 10000 := by
      unfold roundQty6
      rw [roundHalfEvenNonneg_eq_of_lt ((1 : ℚ) / 10000 * 1000000) 100
        (by norm_num) (by norm_num)]
      norm_num
    norm_num [applyAiDecision, c1Decision, c1State, updatePrice,
      checkExitRecommendations, executeEntry, openPosition, hasOpenBotPosition,
      optTruthy, hq, show ¬(("BTCUSDT" : String) = "") from by decide]
  · have hq : roundQty6 (1 / 10000) = 1 / 10000 := by
      unfold roundQty6
      rw [roundHalfEvenNonneg_eq_of_lt ((1 : ℚ) / 10000 * 1000000) 100
        (by norm_num) (by norm_num)]
      norm_num
    norm_num [applyAiDecision, c1Decision, c1State, updatePrice,
      checkExitRecommendations, executeEntry, openPosition, hasOpenBotPosition,
      optTruthy, hq, show ¬(("BTCUSDT" : String) = "") from by decide]

/-- Witness for C1: the solvency rejection and the non-negativity fact at
the scenario numbers. -/
theorem c1_overdrawing_entry_clipped_then_solvency_witness :
    executeEntry {} c1State "BTCUSDT" 65000 (77 / 1000000) none none false 0 =
      (c1State, .rejected "PAPER_INSUFFICIENT_BAL") ∧
    0 ≤ c1State.paper_balance_usdt := by
  have hthm := c1_overdrawing_entry_clipped_then_solvency {} c1State "BTCUSDT"
    65000 (77 / 1000000) none none false 0
  have hrej := hthm.2.1 (by norm_num [c1State])
  exact ⟨hrej, hthm.2.2.1 (by norm_num [c1State]) c1State _ hrej⟩

end V1Bot
